import Mathlib

/-!
Shallow embedding of the `GoogleSheetsService` class (file `server/sheets.js`,
the variant cited by the specification) of the mcp-googlesheet repository,
together with proofs of the specification claims about it.

Conventions of the embedding:
* JavaScript runtime values that can appear in `cell.value` are modelled by
  `JSVal`; `cell.formattedValue`, which the client library types as
  `string | null` (and which the code additionally tests against `undefined`),
  is modelled by `FVal`.
* JavaScript strings are Lean `String`s; the regular-expression style
  matching in `extractSheetIdFromUrl` and `detectCellType` is modelled by
  explicit executable matchers over `List Char` with JavaScript `match`/`test`
  semantics (unanchored search, leftmost match, greedy capture).
* `throw`/`try`/`catch` control flow is modelled with `Except`; each
  `async` service method with observable remote effects additionally returns
  the list of remote operations it performed (`SvcEvent`), in order.
* JavaScript numbers are modelled as `Int`: every numeric value appearing in
  the claims is an integer, and no arithmetic is performed on cell values.
-/

deriving instance DecidableEq for Except

namespace MCPSheets

/-- A JavaScript runtime value as it can appear in `cell.value` of the
google-spreadsheet client library: string, number, boolean, null or
undefined. -/
inductive JSVal where
  | vstr (s : String)
  | vnum (n : Int)
  | vbool (b : Bool)
  | vnull
  | vundef
deriving DecidableEq

/-- The value of `cell.formattedValue`: a string or null per the client
library typing; the code also tests it against `undefined`, so the model
includes it. -/
inductive FVal where
  | fstr (s : String)
  | fnull
  | fundef
deriving DecidableEq

/-- JavaScript truthiness of a `formattedValue` (used by
`if (cell.formattedValue && ...)`): only a non-empty string is truthy. -/
def FVal.truthy : FVal → Bool
  | .fstr s => s != ""
  | .fnull => false
  | .fundef => false

/-- JavaScript strict equality `cell.formattedValue === cell.value`:
operands of different runtime types are never strictly equal. -/
def fvStrictEq : FVal → JSVal → Bool
  | .fstr s, .vstr t => s == t
  | .fnull, .vnull => true
  | .fundef, .vundef => true
  | _, _ => false

/-- The check `cell.value !== null && cell.value !== undefined &&
cell.value !== ''` from `extractCellData`. -/
def jsValNonEmpty : JSVal → Bool
  | .vnull => false
  | .vundef => false
  | .vstr s => s != ""
  | .vnum _ => true
  | .vbool _ => true

/-- The check `cell.formattedValue !== null && cell.formattedValue !==
undefined && cell.formattedValue !== ''` from `extractCellData`. -/
def fvalNonEmpty : FVal → Bool
  | .fnull => false
  | .fundef => false
  | .fstr s => s != ""

/-- One cell of a loaded worksheet grid, exposing the accessors the
extraction code reads: `value`, `formattedValue` and `hyperlink`
(`none` models an absent/undefined hyperlink). -/
structure Cell where
  value : JSVal
  formattedValue : FVal
  hyperlink : Option String
deriving DecidableEq

/-- A loaded worksheet: declared grid bounds `rowCount`/`columnCount`,
title, positional index, and the `getCell(row, col)` accessor
(zero-based coordinates). -/
structure Worksheet where
  title : String
  index : Nat
  rowCount : Nat
  columnCount : Nat
  getCell : Nat → Nat → Cell

/-- Consume exactly `n` decimal digits (`\d` of the JavaScript regexes),
returning the rest of the input, or `none` if fewer digits are available. -/
def takeExactDigits : Nat → List Char → Option (List Char)
  | 0, l => some l
  | _ + 1, [] => none
  | n + 1, c :: l => if c.isDigit then takeExactDigits n l else none

/-- Matching of the regex fragment `\d{1,2}SEP\d{1,2}SEP\d{2,4}` at the
head of the input, for a separator character `SEP`; the existential
choice over `{1,2}` repetition counts models regex backtracking. -/
def sepDateHere (sep : Char) (l : List Char) : Bool :=
  [1, 2].any fun a =>
    match takeExactDigits a l with
    | some (c :: r) =>
      c == sep &&
        ([1, 2].any fun b =>
          match takeExactDigits b r with
          | some (c₂ :: r₂) => c₂ == sep && (takeExactDigits 2 r₂).isSome
          | _ => false)
    | _ => false

/-- Matching of the ISO regex fragment `\d{4}-\d{2}-\d{2}` at the head of
the input. -/
def isoDateHere (l : List Char) : Bool :=
  match takeExactDigits 4 l with
  | some (c :: r) =>
    c == '-' &&
      (match takeExactDigits 2 r with
       | some (c₂ :: r₂) => c₂ == '-' && (takeExactDigits 2 r₂).isSome
       | _ => false)
  | _ => false

/-- Unanchored search: does `p` match at some position of the input
(including the end-of-input position), as JavaScript `match`/`test` do? -/
def existsPos (p : List Char → Bool) : List Char → Bool
  | [] => p []
  | c :: l => p (c :: l) || existsPos p l

/-- The test `formatted.match(/\d{1,2}\/\d{1,2}\/\d{2,4}|\d{1,2}-\d{1,2}-\d{2,4}/)`
of the numeric branch of `detectCellType`. -/
def numFmtDateMatch (s : String) : Bool :=
  existsPos (fun l => sepDateHere '/' l || sepDateHere '-' l) s.toList

/-- The test `datePattern.test(cell.value)` of the string branch of
`detectCellType`, with pattern
`\d{1,2}\/\d{1,2}\/\d{2,4}|\d{1,2}-\d{1,2}-\d{2,4}|\d{4}-\d{2}-\d{2}`. -/
def strDateMatch (s : String) : Bool :=
  existsPos (fun l => sepDateHere '/' l || sepDateHere '-' l || isoDateHere l) s.toList

/-- The test `formatted.includes('%')`: for a single-character needle,
substring containment is character containment. -/
def includesChar (c : Char) (s : String) : Bool := s.toList.contains c

/-- The currency character class `[$£€¥₹₽₩]` of `detectCellType`. -/
def currencySymbols : List Char := ['$', '£', '€', '¥', '₹', '₽', '₩']

/-- The test `formatted.match(/[$£€¥₹₽₩]/)`. -/
def hasCurrencySymbol (s : String) : Bool :=
  s.toList.any fun c => currencySymbols.contains c

/-- The expression `cell.formattedValue || ''`: a falsy formatted value
(null, undefined or the empty string) yields the empty string. -/
def FVal.orEmpty : FVal → String
  | .fstr s => s
  | .fnull => ""
  | .fundef => ""

/-- `detectCellType(cell)` from `server/sheets.js`: boolean first; for a
numeric value percentage, then currency, then date pattern, then number;
a date-looking string is a date; everything else is a string. -/
def detectCellType (value : JSVal) (formattedValue : FVal) : String :=
  match value with
  | .vbool _ => "boolean"
  | .vnum _ =>
    let formatted := formattedValue.orEmpty
    if includesChar '%' formatted then "percentage"
    else if hasCurrencySymbol formatted then "currency"
    else if numFmtDateMatch formatted then "date"
    else "number"
  | .vstr s => if strDateMatch s then "date" else "string"
  | .vnull => "string"
  | .vundef => "string"

/-- One emitted cell record (`cellData` in the source): 1-based position,
raw value, detected type, the optional `fmt` field and the optional
`hyperlink` field (`none` models an absent field). -/
structure CellData where
  pos : Nat × Nat
  val : JSVal
  type : String
  fmt : Option FVal
  hyperlink : Option String
deriving DecidableEq

/-- The `if (cell.hyperlink) cellData.hyperlink = cell.hyperlink` step:
the field is added only when the hyperlink is present and truthy; a read
failure is swallowed and treated as absence. -/
def emitHyperlink : Option String → Option String
  | some s => if s != "" then some s else none
  | none => none

/-- The record `extractCellData` builds for a visible cell at zero-based
grid coordinates `(row, col)`: position converted to 1-based, raw value
copied, type inferred, `fmt` added only when the formatted value is
truthy and not strictly (`!==`) equal to the raw value. -/
def mkCellData (row col : Nat) (cell : Cell) : CellData :=
  { pos := (row + 1, col + 1)
    val := cell.value
    type := detectCellType cell.value cell.formattedValue
    fmt :=
      if cell.formattedValue.truthy && !fvStrictEq cell.formattedValue cell.value then
        some cell.formattedValue
      else none
    hyperlink := emitHyperlink cell.hyperlink }

/-- The visibility filter of `extractCellData`: the conjunction of the
raw-value and formatted-value non-emptiness checks. -/
def cellVisible (cell : Cell) : Bool :=
  jsValNonEmpty cell.value && fvalNonEmpty cell.formattedValue

/-- The `metadata` part of the value returned by `extractCellData`. -/
structure ExtractMetadata where
  title : String
  dimensions : Nat × Nat
deriving DecidableEq

/-- The value returned by `extractCellData`. -/
structure ExtractResult where
  metadata : ExtractMetadata
  cells : List CellData

/-- The body of the inner loop of `extractCellData` at grid coordinates
`(row, col)`: read the cell and push its record exactly when it passes
the visibility filter. -/
def emitCell (sheet : Worksheet) (row col : Nat) : Option CellData :=
  let cell := sheet.getCell row col
  if cellVisible cell then some (mkCellData row col cell) else none

/-- `extractCellData(sheet)` from `server/sheets.js`: a row-major scan of
the full declared grid, pushing a record for every cell passing the
visibility filter. -/
def extractCellData (sheet : Worksheet) : ExtractResult :=
  { metadata :=
      { title := sheet.title
        dimensions := (sheet.rowCount, sheet.columnCount) }
    cells :=
      (List.range sheet.rowCount).flatMap fun row =>
        (List.range sheet.columnCount).filterMap (emitCell sheet row) }

/-- The `while (colNum > 0)` loop of `columnToLetter`, with an explicit
fuel argument making its termination structural: each iteration
decrements, takes the residue mod 26 as a letter prepended to the
result, and divides by 26. The fuel never runs out when it starts at
least as large as the loop variable (`colLettersF_congr` below). -/
def colLettersF : Nat → Nat → List Char
  | 0, _ => []
  | _ + 1, 0 => []
  | fuel + 1, n + 1 => colLettersF fuel (n / 26) ++ [Char.ofNat (65 + n % 26)]

/-- The character list built by the `while` loop of `columnToLetter`. -/
def colLetters (colNum : Nat) : List Char := colLettersF colNum colNum

/-- `columnToLetter(colNum)` from `server/sheets.js` (Excel-style
bijective base-26 column name). -/
def columnToLetter (colNum : Nat) : String := String.mk (colLetters colNum)

/-- The mathematical decoding of an Excel-style column name as a
character list, used to state that `columnToLetter` is the bijective
base-26 encoding: fold each letter as a digit in 1..26. -/
def decodeLetters (l : List Char) : Nat :=
  l.foldl (fun acc c => acc * 26 + (c.toNat - 64)) 0

/-- The mathematical decoding of an Excel-style column name. -/
def letterToColumn (s : String) : Nat := decodeLetters s.toList

/-- The identifier character class `[a-zA-Z0-9-_]` of the three URL
patterns of `extractSheetIdFromUrl`. -/
def isIdChar (c : Char) : Bool :=
  ('a' ≤ c && c ≤ 'z') || ('A' ≤ c && c ≤ 'Z') || ('0' ≤ c && c ≤ '9') ||
    c == '-' || c == '_'

/-- The literal part of the pattern `/\/spreadsheets\/d\/([a-zA-Z0-9-_]+)/`. -/
def lit1 : List Char := "/spreadsheets/d/".toList

/-- The literal part of the pattern `/\/d\/([a-zA-Z0-9-_]+)/`. -/
def lit2 : List Char := "/d/".toList

/-- The literal part of the pattern `/id=([a-zA-Z0-9-_]+)/`. -/
def lit3 : List Char := "id=".toList

/-- Attempt to match `lit` followed by at least one identifier character
at the head of `u`; on success return the greedy capture (the maximal run
of identifier characters after the literal). -/
def tryHere (lit u : List Char) : Option (List Char) :=
  if lit.isPrefixOf u then
    match u.drop lit.length with
    | c :: r => if isIdChar c then some ((c :: r).takeWhile isIdChar) else none
    | [] => none
  else none

/-- `url.match(pattern)` for one of the three patterns: scan left to
right and return the capture of the leftmost position where the whole
pattern matches. -/
def findCapture (lit : List Char) : List Char → Option (List Char)
  | [] => none
  | c :: u =>
    match tryHere lit (c :: u) with
    | some r => some r
    | none => findCapture lit u

/-- The two failure modes of `extractSheetIdFromUrl`: the
no-pattern-matched error thrown inside the `try` block (`Could not
extract sheet ID from URL…`) and the error thrown by its `catch` block
(`Invalid Google Sheets URL format…`). -/
inductive UrlError where
  | malformedUrl
  | invalidUrl
deriving DecidableEq

/-- The `try` block of `extractSheetIdFromUrl`: the three patterns are
tried in order, the first capture is returned, and if none matches the
no-pattern-matched error is thrown. -/
def extractSheetIdBody (url : List Char) : Except UrlError (List Char) :=
  match findCapture lit1 url with
  | some m => .ok m
  | none =>
    match findCapture lit2 url with
    | some m => .ok m
    | none =>
      match findCapture lit3 url with
      | some m => .ok m
      | none => .error .malformedUrl

/-- `extractSheetIdFromUrl(url)` from `server/sheets.js`: the whole `try`
block is wrapped by a `catch` that replaces any error — including the
no-pattern-matched error thrown inside the `try` itself — with the
generic invalid-URL-format error. -/
def extractSheetIdFromUrl (url : List Char) : Except UrlError (List Char) :=
  match extractSheetIdBody url with
  | .ok m => .ok m
  | .error _ => .error .invalidUrl

/-- One remote operation of the spreadsheet client, as observed by the
service methods: URL resolution, `doc.loadInfo()`, or
`sheet.loadCells()` on the named worksheet. -/
inductive SvcEvent where
  | resolveUrl
  | loadInfo
  | loadCells (title : String)
deriving DecidableEq

/-- Is this event a cell-grid load? -/
def SvcEvent.isLoadCells : SvcEvent → Bool
  | .loadCells _ => true
  | .resolveUrl => false
  | .loadInfo => false

/-- The document object after a successful `doc.loadInfo()`: document
metadata and the worksheets in index order. -/
structure SpreadsheetDoc where
  title : String
  spreadsheetUrl : String
  createdTime : String
  modifiedTime : String
  lastModifyingUser : String
  worksheets : List Worksheet

/-- `doc.sheetsByTitle[sheetName]`: exact, case-sensitive title lookup. -/
def sheetsByTitle (doc : SpreadsheetDoc) (sheetName : String) : Option Worksheet :=
  doc.worksheets.find? fun w => w.title == sheetName

/-- The errors of the two service methods: the four errors thrown inside
their `try` blocks (uninitialized service, invalid URL, upstream load
failure, worksheet not found) and the two generic errors their `catch`
blocks replace them with. -/
inductive ServiceError where
  | notInitialized
  | invalidUrl
  | upstream
  | sheetNotFound
  | summaryFailed
  | sheetDataFailed
deriving DecidableEq

/-- A per-worksheet entry of the summary (`sheetNames` in the source). -/
structure WorksheetEntry where
  name : String
  index : Nat
  rowCount : Nat
  columnCount : Nat
deriving DecidableEq

/-- The value returned by `getSpreadsheetSummary`. -/
structure SummaryResult where
  id : String
  title : String
  url : String
  sheetCount : Nat
  sheetNames : List WorksheetEntry
  createdTime : String
  modifiedTime : String
  lastModifyingUser : String
deriving DecidableEq

/-- The value returned by `getSheetData`. -/
structure SheetDataResult where
  spreadsheetId : String
  spreadsheetTitle : String
  spreadsheetUrl : String
  metaTitle : String
  dimensions : Nat × Nat
  createdTime : String
  modifiedTime : String
  lastModifyingUser : String
  sheetIndex : Nat
  cells : List CellData
deriving DecidableEq

/-- The `try` block of `getSpreadsheetSummary(url)`: guard on the auth
handle, resolve the URL, `loadInfo`, then assemble the summary from
worksheet-level metadata only. `remote` models the spreadsheet service:
the document `loadInfo` yields for a sheet id, or `none` for an upstream
failure. The second component is the ordered list of remote operations
performed. -/
def getSpreadsheetSummaryBody (auth : Bool) (remote : String → Option SpreadsheetDoc)
    (url : String) : Except ServiceError SummaryResult × List SvcEvent :=
  if !auth then (.error .notInitialized, [])
  else
    match extractSheetIdFromUrl url.toList with
    | .error _ => (.error .invalidUrl, [.resolveUrl])
    | .ok sheetId =>
      match remote (String.mk sheetId) with
      | none => (.error .upstream, [.resolveUrl, .loadInfo])
      | some doc =>
        (.ok
          { id := String.mk sheetId
            title := doc.title
            url := doc.spreadsheetUrl
            sheetCount := doc.worksheets.length
            sheetNames := doc.worksheets.map fun w =>
              { name := w.title, index := w.index
                rowCount := w.rowCount, columnCount := w.columnCount }
            createdTime := doc.createdTime
            modifiedTime := doc.modifiedTime
            lastModifyingUser := doc.lastModifyingUser },
         [.resolveUrl, .loadInfo])

/-- `getSpreadsheetSummary(url)` from `server/sheets.js`: the `catch`
block replaces any error from the `try` block with the generic
failed-to-retrieve-summary error. -/
def getSpreadsheetSummary (auth : Bool) (remote : String → Option SpreadsheetDoc)
    (url : String) : Except ServiceError SummaryResult × List SvcEvent :=
  match getSpreadsheetSummaryBody auth remote url with
  | (.ok r, t) => (.ok r, t)
  | (.error _, t) => (.error .summaryFailed, t)

/-- The `try` block of `getSheetData(url, sheetName)`: guard on the auth
handle, resolve the URL, `loadInfo`, look the worksheet up by exact
title (throwing the sheet-not-found error when absent), `loadCells`,
extract, and assemble the response. -/
def getSheetDataBody (auth : Bool) (remote : String → Option SpreadsheetDoc)
    (url sheetName : String) : Except ServiceError SheetDataResult × List SvcEvent :=
  if !auth then (.error .notInitialized, [])
  else
    match extractSheetIdFromUrl url.toList with
    | .error _ => (.error .invalidUrl, [.resolveUrl])
    | .ok sheetId =>
      match remote (String.mk sheetId) with
      | none => (.error .upstream, [.resolveUrl, .loadInfo])
      | some doc =>
        match sheetsByTitle doc sheetName with
        | none => (.error .sheetNotFound, [.resolveUrl, .loadInfo])
        | some sheet =>
          let extracted := extractCellData sheet
          (.ok
            { spreadsheetId := String.mk sheetId
              spreadsheetTitle := doc.title
              spreadsheetUrl := doc.spreadsheetUrl
              metaTitle := extracted.metadata.title
              dimensions := extracted.metadata.dimensions
              createdTime := doc.createdTime
              modifiedTime := doc.modifiedTime
              lastModifyingUser := doc.lastModifyingUser
              sheetIndex := sheet.index
              cells := extracted.cells },
           [.resolveUrl, .loadInfo, .loadCells sheet.title])

/-- `getSheetData(url, sheetName)` from `server/sheets.js`: the `catch`
block replaces any error from the `try` block — including the
sheet-not-found error thrown inside it — with the generic
failed-to-retrieve-sheet-data error. -/
def getSheetData (auth : Bool) (remote : String → Option SpreadsheetDoc)
    (url sheetName : String) : Except ServiceError SheetDataResult × List SvcEvent :=
  match getSheetDataBody auth remote url sheetName with
  | (.ok r, t) => (.ok r, t)
  | (.error _, t) => (.error .sheetDataFailed, t)

/-- The row-major strict order on emitted positions. -/
def posLt (a b : Nat × Nat) : Prop := a.1 < b.1 ∨ (a.1 = b.1 ∧ a.2 < b.2)

/-- JavaScript `String(value)` applied to a raw cell value. -/
def jsValToString : JSVal → String
  | .vstr s => s
  | .vnum n => toString n
  | .vbool b => if b then "true" else "false"
  | .vnull => "null"
  | .vundef => "undefined"

/-- The formatted-value omission rule exactly as the specification states
it: an emitted record carries the `fmt` field iff the cell's formatted
value differs by value from the string form of its raw value. -/
def fmtOmissionClaim : Prop :=
  ∀ (sheet : Worksheet) (r c : Nat), r < sheet.rowCount → c < sheet.columnCount →
    cellVisible (sheet.getCell r c) = true →
    ((mkCellData r c (sheet.getCell r c)).fmt ≠ none ↔
      (sheet.getCell r c).formattedValue ≠ .fstr (jsValToString (sheet.getCell r c).value))

/-- Is `x` a non-empty string over the identifier character class? -/
def isIdString (x : List Char) : Bool := !x.isEmpty && x.all isIdChar

/-- Does the identifier-character run stop at this suffix (it is empty or
begins with a non-identifier character)? -/
def stopsId : List Char → Bool
  | [] => true
  | c :: _ => !isIdChar c

/-- The pattern with literal `lit` has no full match at any position of
the input. -/
def noCaptureAnywhere (lit : List Char) : List Char → Bool
  | [] => true
  | c :: u => (tryHere lit (c :: u)).isNone && noCaptureAnywhere lit u

/-- The pattern with literal `lit` has no full match at any position
strictly inside the prefix `p` of `p ++ rest`. -/
def noEarlyCapture (lit : List Char) : List Char → List Char → Bool
  | [], _ => true
  | c :: p, rest => (tryHere lit ((c :: p) ++ rest)).isNone && noEarlyCapture lit p rest

/-- A well-formed URL embedding identifier `x` in the shape given by the
literal `lit`: the URL decomposes as `p ++ lit ++ x ++ s` where `x` is a
non-empty identifier-character string, the identifier run stops at `s`,
and this occurrence is the leftmost full match of the pattern. -/
def WellFormedShape (lit url x : List Char) : Prop :=
  ∃ p s, url = p ++ lit ++ x ++ s ∧ isIdString x = true ∧ stopsId s = true ∧
    noEarlyCapture lit p (lit ++ x ++ s) = true

/-- A concrete 1×2 worksheet used by witnesses: cell (0,0) is a visible
numeric cell, cell (0,1) is empty. -/
def sampleSheet : Worksheet :=
  { title := "Sheet1"
    index := 0
    rowCount := 1
    columnCount := 2
    getCell := fun _ c =>
      if c = 0 then
        { value := .vnum 7, formattedValue := .fstr "7.00", hyperlink := none }
      else
        { value := .vnull, formattedValue := .fnull, hyperlink := none } }

/-- A 1×1 worksheet whose only cell has raw numeric value 5 and formatted
display "5". -/
def fiveSheet : Worksheet :=
  { title := "Sheet1"
    index := 0
    rowCount := 1
    columnCount := 1
    getCell := fun _ _ =>
      { value := .vnum 5, formattedValue := .fstr "5", hyperlink := none } }

/-- A concrete loaded document with the single worksheet `sampleSheet`. -/
def sampleDoc : SpreadsheetDoc :=
  { title := "Budget"
    spreadsheetUrl := "https://docs.google.com/spreadsheets/d/abc123"
    createdTime := "2024-01-01T00:00:00Z"
    modifiedTime := "2024-01-02T00:00:00Z"
    lastModifyingUser := "user@example.com"
    worksheets := [sampleSheet] }

/-- A remote collaborator that successfully loads `sampleDoc` for every
spreadsheet id. -/
def sampleRemote : String → Option SpreadsheetDoc := fun _ => some sampleDoc

/-- A concrete valid spreadsheet URL. -/
def sampleUrl : String := "https://docs.google.com/spreadsheets/d/abc123/edit"

/-! ### Helper lemmas: `extractCellData` -/

theorem emitCell_eq_some {sheet : Worksheet} {r c : Nat} {x : CellData} :
    emitCell sheet r c = some x ↔
      cellVisible (sheet.getCell r c) = true ∧ x = mkCellData r c (sheet.getCell r c) := by
  simp only [emitCell]
  split
  next hv => simp [hv, eq_comm]
  next hv => simp [hv]

/-- Membership characterization for the cell list produced by
`extractCellData`: exactly the records of the visible cells. -/
theorem mem_extract_iff (sheet : Worksheet) (cd : CellData) :
    cd ∈ (extractCellData sheet).cells ↔
      ∃ r c, r < sheet.rowCount ∧ c < sheet.columnCount ∧
        cellVisible (sheet.getCell r c) = true ∧
        cd = mkCellData r c (sheet.getCell r c) := by
  simp only [extractCellData, List.mem_flatMap, List.mem_range, List.mem_filterMap,
    emitCell_eq_some]
  constructor
  · rintro ⟨r, hr, c, hc, hv, hcd⟩
    exact ⟨r, c, hr, hc, hv, hcd⟩
  · rintro ⟨r, c, hr, hc, hv, hcd⟩
    exact ⟨r, hr, c, hc, hv, hcd⟩

theorem cellVisible_iff (cell : Cell) :
    cellVisible cell = true ↔
      cell.value ≠ .vnull ∧ cell.value ≠ .vundef ∧ cell.value ≠ .vstr "" ∧
      cell.formattedValue ≠ .fnull ∧ cell.formattedValue ≠ .fundef ∧
      cell.formattedValue ≠ .fstr "" := by
  obtain ⟨v, f, hy⟩ := cell
  cases v <;> cases f <;> simp [cellVisible, jsValNonEmpty, fvalNonEmpty]

theorem mkCellData_pos (r c : Nat) (cell : Cell) :
    (mkCellData r c cell).pos = (r + 1, c + 1) := rfl

theorem extract_pairwise (sheet : Worksheet) :
    List.Pairwise (fun a b => posLt a.pos b.pos) (extractCellData sheet).cells := by
  show List.Pairwise _ ((List.range sheet.rowCount).flatMap fun row =>
    (List.range sheet.columnCount).filterMap (emitCell sheet row))
  rw [List.pairwise_flatMap]
  constructor
  · intro r _
    rw [List.pairwise_filterMap]
    refine List.Pairwise.imp ?_ (List.pairwise_lt_range sheet.columnCount)
    intro c c' hlt x hx y hy
    rw [Option.mem_def, emitCell_eq_some] at hx hy
    rw [hx.2, hy.2]
    simp [posLt, mkCellData_pos]
    omega
  · refine List.Pairwise.imp ?_ (List.pairwise_lt_range sheet.rowCount)
    intro r r' hlt x hx y hy
    rw [List.mem_filterMap] at hx hy
    obtain ⟨c, _, hx⟩ := hx
    obtain ⟨c', _, hy⟩ := hy
    rw [emitCell_eq_some] at hx hy
    rw [hx.2, hy.2]
    simp [posLt, mkCellData_pos]
    omega

/-! ### Claim theorems: C1 and C6 -/

/-- C1. Cell visibility invariant: a cell of the grid appears in the list
returned by `extractCellData` (at its 1-based position) iff both its raw
value and its formatted value are non-empty, i.e. each is neither null
nor undefined nor the empty string. -/
theorem cell_visibility_invariant (sheet : Worksheet) (r c : Nat)
    (hr : r < sheet.rowCount) (hc : c < sheet.columnCount) :
    (∃ cd ∈ (extractCellData sheet).cells, cd.pos = (r + 1, c + 1)) ↔
      ((sheet.getCell r c).value ≠ .vnull ∧ (sheet.getCell r c).value ≠ .vundef ∧
       (sheet.getCell r c).value ≠ .vstr "" ∧
       (sheet.getCell r c).formattedValue ≠ .fnull ∧
       (sheet.getCell r c).formattedValue ≠ .fundef ∧
       (sheet.getCell r c).formattedValue ≠ .fstr "") := by
  rw [← cellVisible_iff]
  constructor
  · rintro ⟨cd, hmem, hpos⟩
    rw [mem_extract_iff] at hmem
    obtain ⟨r', c', hr', hc', hv, rfl⟩ := hmem
    rw [mkCellData_pos, Prod.mk.injEq] at hpos
    have hrr : r' = r := by omega
    have hcc : c' = c := by omega
    subst hrr; subst hcc
    exact hv
  · intro hv
    exact ⟨mkCellData r c (sheet.getCell r c),
      (mem_extract_iff sheet _).2 ⟨r, c, hr, hc, hv, rfl⟩, rfl⟩

/-- Witness for C1 at `sampleSheet`, cell (0,0). -/
theorem cell_visibility_invariant_witness :
    (∃ cd ∈ (extractCellData sampleSheet).cells, cd.pos = (0 + 1, 0 + 1)) ↔
      ((sampleSheet.getCell 0 0).value ≠ .vnull ∧
       (sampleSheet.getCell 0 0).value ≠ .vundef ∧
       (sampleSheet.getCell 0 0).value ≠ .vstr "" ∧
       (sampleSheet.getCell 0 0).formattedValue ≠ .fnull ∧
       (sampleSheet.getCell 0 0).formattedValue ≠ .fundef ∧
       (sampleSheet.getCell 0 0).formattedValue ≠ .fstr "") :=
  cell_visibility_invariant sampleSheet 0 0 (by decide) (by decide)

/-- C6. Row-major ordering: any two emitted cells A before B satisfy
A.row < B.row or (A.row = B.row and A.col < B.col); consequently no
position appears twice; and every emitted cell is the record of a
zero-based grid cell with position shifted by one in each component. -/
theorem row_major_ordering (sheet : Worksheet) :
    List.Pairwise (fun a b => posLt a.pos b.pos) (extractCellData sheet).cells ∧
    List.Pairwise (fun a b => a.pos ≠ b.pos) (extractCellData sheet).cells ∧
    ∀ cd ∈ (extractCellData sheet).cells, ∃ r c,
      r < sheet.rowCount ∧ c < sheet.columnCount ∧
      cd = mkCellData r c (sheet.getCell r c) ∧ cd.pos = (r + 1, c + 1) := by
  refine ⟨extract_pairwise sheet, ?_, ?_⟩
  · refine (extract_pairwise sheet).imp ?_
    intro a b hab heq
    rw [heq] at hab
    rcases hab with h | ⟨_, h⟩ <;> omega
  · intro cd hmem
    rw [mem_extract_iff] at hmem
    obtain ⟨r, c, hr, hc, _, rfl⟩ := hmem
    exact ⟨r, c, hr, hc, rfl, rfl⟩

/-- Witness for C6: the membership part applied to the record of cell
(0,0) of `sampleSheet`. -/
theorem row_major_ordering_witness :
    ∃ r c, r < sampleSheet.rowCount ∧ c < sampleSheet.columnCount ∧
      mkCellData 0 0 (sampleSheet.getCell 0 0) = mkCellData r c (sampleSheet.getCell r c) ∧
      (mkCellData 0 0 (sampleSheet.getCell 0 0)).pos = (r + 1, c + 1) :=
  (row_major_ordering sampleSheet).2.2 (mkCellData 0 0 (sampleSheet.getCell 0 0)) (by decide)

/-! ### Helper lemmas: `columnToLetter` -/

theorem colLettersF_zero (f : Nat) : colLettersF f 0 = [] := by
  cases f <;> rfl

theorem colLettersF_congr (n : Nat) :
    ∀ f₁ f₂, n ≤ f₁ → n ≤ f₂ → colLettersF f₁ n = colLettersF f₂ n := by
  induction n using Nat.strong_induction_on with
  | _ n ih =>
    intro f₁ f₂ h₁ h₂
    cases n with
    | zero => rw [colLettersF_zero, colLettersF_zero]
    | succ m =>
      cases f₁ with
      | zero => omega
      | succ g₁ =>
        cases f₂ with
        | zero => omega
        | succ g₂ =>
          simp only [colLettersF]
          have hd := Nat.div_le_self m 26
          rw [ih (m / 26) (by omega) g₁ g₂ (by omega) (by omega)]

theorem colLetters_succ (n : Nat) :
    colLetters (n + 1) = colLetters (n / 26) ++ [Char.ofNat (65 + n % 26)] := by
  show colLettersF (n + 1) (n + 1) = colLettersF (n / 26) (n / 26) ++ _
  simp only [colLettersF]
  have hd := Nat.div_le_self n 26
  rw [colLettersF_congr (n / 26) n (n / 26) (by omega) (by omega)]

theorem decodeLetters_append_singleton (l : List Char) (c : Char) :
    decodeLetters (l ++ [c]) = decodeLetters l * 26 + (c.toNat - 64) := by
  simp [decodeLetters, List.foldl_append]

theorem toNat_ofNat_65 (r : Nat) (h : r < 26) : (Char.ofNat (65 + r)).toNat = 65 + r := by
  interval_cases r <;> decide

theorem decodeLetters_colLetters (n : Nat) : decodeLetters (colLetters n) = n := by
  induction n using Nat.strong_induction_on with
  | _ n ih =>
    cases n with
    | zero => rfl
    | succ m =>
      rw [colLetters_succ, decodeLetters_append_singleton]
      have hd := Nat.div_le_self m 26
      rw [ih (m / 26) (by omega)]
      rw [toNat_ofNat_65 (m % 26) (Nat.mod_lt m (by omega))]
      have hdm := Nat.div_add_mod m 26
      omega

theorem colLetters_range (n : Nat) : ∀ ch ∈ colLetters n, 'A' ≤ ch ∧ ch ≤ 'Z' := by
  induction n using Nat.strong_induction_on with
  | _ n ih =>
    cases n with
    | zero => intro ch h; simp [colLetters, colLettersF] at h
    | succ m =>
      rw [colLetters_succ]
      intro ch hch
      rw [List.mem_append] at hch
      cases hch with
      | inl h =>
        have hd := Nat.div_le_self m 26
        exact ih (m / 26) (by omega) ch h
      | inr h =>
        rw [List.mem_singleton] at h
        subst h
        have h26 : m % 26 < 26 := Nat.mod_lt m (by omega)
        generalize m % 26 = r at h26
        interval_cases r <;> exact ⟨by decide, by decide⟩

/-! ### Claim theorems: C10 and C2 -/

/-- C10. `columnToLetter` totality: for every `colNum ≥ 1` the function
terminates (it is a total Lean function) and returns a non-empty string
over the letters A–Z that is the Excel-style bijective base-26 encoding
(witnessed by the decoding `letterToColumn` inverting it), with
`1 ↦ "A"`, `26 ↦ "Z"`, `27 ↦ "AA"`. -/
theorem columnToLetter_totality :
    (∀ n : Nat, 1 ≤ n →
      columnToLetter n ≠ "" ∧
      (∀ ch ∈ (columnToLetter n).toList, 'A' ≤ ch ∧ ch ≤ 'Z') ∧
      letterToColumn (columnToLetter n) = n) ∧
    columnToLetter 1 = "A" ∧ columnToLetter 26 = "Z" ∧ columnToLetter 27 = "AA" := by
  refine ⟨?_, by decide, by decide, by decide⟩
  intro n hn
  refine ⟨?_, ?_, ?_⟩
  · cases n with
    | zero => omega
    | succ m =>
      intro hcontra
      have hnil : colLetters (m + 1) = ([] : List Char) := congrArg String.data hcontra
      rw [colLetters_succ] at hnil
      simp at hnil
  · intro ch hch
    exact colLetters_range n ch hch
  · exact decodeLetters_colLetters n

/-- Witness for C10 at `colNum = 703` (the column "AAA"). -/
theorem columnToLetter_totality_witness :
    columnToLetter 703 ≠ "" ∧
    (∀ ch ∈ (columnToLetter 703).toList, 'A' ≤ ch ∧ ch ≤ 'Z') ∧
    letterToColumn (columnToLetter 703) = 703 :=
  columnToLetter_totality.1 703 (by decide)

/-- C2. Type inference determinism: the six example classifications of
the specification, plus one example for each step of the priority order
(boolean before the numeric checks; percentage before currency; currency
before the date pattern; the date pattern before plain number). -/
theorem detectCellType_determinism :
    detectCellType (.vnum 42) (.fstr "42%") = "percentage" ∧
    detectCellType (.vnum 42) (.fstr "$42.00") = "currency" ∧
    detectCellType (.vbool true) (.fstr "TRUE") = "boolean" ∧
    detectCellType (.vstr "2024-01-15") (.fstr "2024-01-15") = "date" ∧
    detectCellType (.vnum 42) (.fstr "42") = "number" ∧
    detectCellType (.vstr "hello") (.fstr "hello") = "string" ∧
    detectCellType (.vbool true) (.fstr "42%") = "boolean" ∧
    detectCellType (.vnum 1) (.fstr "1%$") = "percentage" ∧
    detectCellType (.vnum 1) (.fstr "$1/1/11") = "currency" ∧
    detectCellType (.vnum 1) (.fstr "1/1/11") = "date" := by
  decide

/-! ### Claim theorems: C3 -/

/-- C3 counterexample: the record extracted for a cell with raw numeric
value 5 and formatted display "5" does carry the `fmt` field, because
the code compares with JavaScript strict `!==`, which never equates a
string with a number; the claimed differs-by-value-from-string-form rule
is therefore false at this input. -/
theorem fmt_omission_counterexample : ¬ fmtOmissionClaim := by
  intro h
  have h5 := h fiveSheet 0 0 (by decide) (by decide) (by decide)
  revert h5
  decide

/-- C3 amended: an emitted record carries `fmt` iff the cell's formatted
value is not strictly (`!==`, same runtime type and value) equal to its
raw value — for a visible cell the formatted value is a non-empty string,
hence truthy. In particular a cell with rawValue=5 carries the field for
formattedValue="5" just as for "5.00". -/
theorem fmt_strict_inequality (r c : Nat) (cell : Cell)
    (hv : cellVisible cell = true) :
    ((mkCellData r c cell).fmt ≠ none ↔
      fvStrictEq cell.formattedValue cell.value = false) ∧
    (mkCellData 0 0 { value := .vnum 5, formattedValue := .fstr "5", hyperlink := none }).fmt
      = some (.fstr "5") ∧
    (mkCellData 0 0 { value := .vnum 5, formattedValue := .fstr "5.00", hyperlink := none }).fmt
      = some (.fstr "5.00") := by
  refine ⟨?_, by decide, by decide⟩
  obtain ⟨v, f, hy⟩ := cell
  cases f with
  | fnull => simp [cellVisible, fvalNonEmpty] at hv
  | fundef => simp [cellVisible, fvalNonEmpty] at hv
  | fstr t =>
    have ht : (t != "") = true := by
      simp only [cellVisible, Bool.and_eq_true] at hv
      exact hv.2
    cases hse : fvStrictEq (.fstr t) v <;>
      simp [mkCellData, FVal.truthy, ht, hse]

/-- Witness for C3's amended theorem at the cell of `fiveSheet`. -/
theorem fmt_strict_inequality_witness :
    ((mkCellData 0 0 (fiveSheet.getCell 0 0)).fmt ≠ none ↔
      fvStrictEq (fiveSheet.getCell 0 0).formattedValue (fiveSheet.getCell 0 0).value = false) ∧
    (mkCellData 0 0 { value := .vnum 5, formattedValue := .fstr "5", hyperlink := none }).fmt
      = some (.fstr "5") ∧
    (mkCellData 0 0 { value := .vnum 5, formattedValue := .fstr "5.00", hyperlink := none }).fmt
      = some (.fstr "5.00") :=
  fmt_strict_inequality 0 0 (fiveSheet.getCell 0 0) (by decide)

/-! ### Helper lemmas: `extractSheetIdFromUrl` -/

theorem findCapture_none {lit : List Char} (u : List Char)
    (h : noCaptureAnywhere lit u = true) : findCapture lit u = none := by
  induction u with
  | nil => rfl
  | cons c u ih =>
    rw [noCaptureAnywhere, Bool.and_eq_true, Option.isNone_iff_eq_none] at h
    rw [findCapture, h.1]
    exact ih h.2

/-! ### Claim theorems: C5 -/

/-- C5 counterexample: resolving "not a url" yields the generic
invalid-URL-format error, not the no-pattern-matched (malformed-URL)
error the claim requires: the latter is thrown inside the `try` block
and the function's own catch-all replaces it. -/
theorem resolution_failure_counterexample :
    extractSheetIdFromUrl ("not a url".toList) = .error .invalidUrl ∧
    extractSheetIdFromUrl ("not a url".toList) ≠ .error .malformedUrl := by
  decide

/-- C5 amended: for every input matching none of the three identifier
patterns, `extractSheetIdFromUrl` raises the wrapping invalid-URL-format
error (`InvalidUrlError`): the no-pattern-matched `MalformedUrlError`
thrown inside the `try` block is caught by the defensive catch-all and
replaced, so it is never observable by callers. -/
theorem resolution_failure (url : List Char)
    (h1 : noCaptureAnywhere lit1 url = true)
    (h2 : noCaptureAnywhere lit2 url = true)
    (h3 : noCaptureAnywhere lit3 url = true) :
    extractSheetIdFromUrl url = .error .invalidUrl := by
  unfold extractSheetIdFromUrl extractSheetIdBody
  rw [findCapture_none url h1, findCapture_none url h2, findCapture_none url h3]

/-- Witness for C5's amended theorem at "not a url". -/
theorem resolution_failure_witness :
    extractSheetIdFromUrl ("not a url".toList) = .error .invalidUrl :=
  resolution_failure ("not a url".toList) (by decide) (by decide) (by decide)

/-! ### Helper lemmas: service methods -/

theorem summary_trace_eq (auth : Bool) (remote : String → Option SpreadsheetDoc)
    (url : String) :
    (getSpreadsheetSummary auth remote url).2 = (getSpreadsheetSummaryBody auth remote url).2 := by
  unfold getSpreadsheetSummary
  split
  next heq => rw [heq]
  next heq => rw [heq]

/-! ### Claim theorems: C8 and C9 -/

/-- C8. Summary cheapness: `getSpreadsheetSummary` performs no
cell-grid load (`loadCells`) for any worksheet on any execution path. -/
theorem summary_never_loads_cells (auth : Bool)
    (remote : String → Option SpreadsheetDoc) (url : String) :
    ((getSpreadsheetSummary auth remote url).2.all fun e => !e.isLoadCells) = true := by
  rw [summary_trace_eq]
  unfold getSpreadsheetSummaryBody
  cases auth with
  | false => rfl
  | true =>
    cases hex : extractSheetIdFromUrl url.toList with
    | error e => simp [hex, SvcEvent.isLoadCells]
    | ok sheetId =>
      cases hrem : remote (String.mk sheetId) with
      | none => simp [hex, hrem, SvcEvent.isLoadCells]
      | some doc => simp [hex, hrem, SvcEvent.isLoadCells]

/-- C9. Uninitialized-service guard: with a null auth handle both service
methods fail with their generic retrieval-failure error (the specific
not-initialized error is replaced by the catch-all) and perform no remote
operation at all — no URL resolution, no metadata load, no cell load. -/
theorem uninitialized_guard (remote : String → Option SpreadsheetDoc)
    (url sheetName : String) :
    getSpreadsheetSummary false remote url = (.error .summaryFailed, []) ∧
    getSheetData false remote url sheetName = (.error .sheetDataFailed, []) :=
  ⟨rfl, rfl⟩

/-! ### Claim theorems: C7 -/

/-- C7 counterexample: with an initialized service, a valid URL, and a
successfully loaded document having no worksheet named "NoSuchSheet",
`getSheetData` fails with the generic failed-to-retrieve-sheet-data
error, not with the specific worksheet-not-found error the claim
requires: that error is thrown inside the `try` block and the method's
own catch-all replaces it. -/
theorem worksheet_not_found_counterexample :
    getSheetData true sampleRemote sampleUrl "NoSuchSheet"
      = (.error .sheetDataFailed, [.resolveUrl, .loadInfo]) ∧
    ServiceError.sheetDataFailed ≠ ServiceError.sheetNotFound := by
  exact ⟨by decide, by decide⟩

/-- C7 amended: for an initialized service, a resolvable URL and a
loaded document, a worksheet name with no exact (case-sensitive) match
makes `getSheetData` fail — with the generic
failed-to-retrieve-sheet-data error, the specific not-found message
having been replaced by the catch-all — without attempting to load any
worksheet's cell grid (the remote trace stops at the metadata load). -/
theorem worksheet_not_found (remote : String → Option SpreadsheetDoc)
    (url sheetName : String) (sid : List Char) (doc : SpreadsheetDoc)
    (hid : extractSheetIdFromUrl url.toList = .ok sid)
    (hdoc : remote (String.mk sid) = some doc)
    (habsent : sheetsByTitle doc sheetName = none) :
    getSheetData true remote url sheetName
      = (.error .sheetDataFailed, [.resolveUrl, .loadInfo]) := by
  have hid' : extractSheetIdFromUrl url.data = .ok sid := hid
  simp [getSheetData, getSheetDataBody, hid', hdoc, habsent]

/-- Witness for C7's amended theorem on the concrete fixtures. -/
theorem worksheet_not_found_witness :
    getSheetData true sampleRemote sampleUrl "NoSuchSheet"
      = (.error .sheetDataFailed, [.resolveUrl, .loadInfo]) :=
  worksheet_not_found sampleRemote sampleUrl "NoSuchSheet" ("abc123".toList) sampleDoc
    (by decide) rfl rfl

/-! ### Helper lemmas: URL pattern matching -/

theorem isPrefixOf_append_self (l r : List Char) : l.isPrefixOf (l ++ r) = true := by
  induction l with
  | nil => simp
  | cons c l ih => simp [ih]

theorem takeWhile_id_append {x s : List Char} (hx : x.all isIdChar = true)
    (hs : stopsId s = true) : (x ++ s).takeWhile isIdChar = x := by
  induction x with
  | nil =>
    cases s with
    | nil => rfl
    | cons c s =>
      rw [stopsId, Bool.not_eq_true'] at hs
      simp [List.takeWhile_cons, hs]
  | cons c x ih =>
    rw [List.all_cons, Bool.and_eq_true] at hx
    simp [List.takeWhile_cons, hx.1, ih hx.2]

theorem tryHere_lit_match {lit x s : List Char} (hx : isIdString x = true)
    (hs : stopsId s = true) : tryHere lit (lit ++ (x ++ s)) = some x := by
  rw [isIdString, Bool.and_eq_true] at hx
  unfold tryHere
  rw [isPrefixOf_append_self]
  simp only [if_true]
  rw [List.drop_left]
  cases x with
  | nil => simp [List.isEmpty] at hx
  | cons c x' =>
    have hall := hx.2
    rw [List.all_cons, Bool.and_eq_true] at hall
    simp only [List.cons_append, hall.1, if_true]
    rw [show (c :: (x' ++ s)) = (c :: x') ++ s from rfl]
    rw [takeWhile_id_append hx.2 hs]

theorem findCapture_of_tryHere {lit u x : List Char}
    (hne : u ≠ []) (h : tryHere lit u = some x) : findCapture lit u = some x := by
  cases u with
  | nil => exact absurd rfl hne
  | cons c v => rw [findCapture, h]

theorem findCapture_skip {lit : List Char} (p rest : List Char)
    (h : noEarlyCapture lit p rest = true) :
    findCapture lit (p ++ rest) = findCapture lit rest := by
  induction p with
  | nil => rfl
  | cons c p ih =>
    rw [noEarlyCapture, Bool.and_eq_true, Option.isNone_iff_eq_none] at h
    rw [List.cons_append, findCapture]
    rw [List.cons_append] at h
    rw [h.1]
    exact ih h.2

theorem findCapture_found {lit x s : List Char} (hx : isIdString x = true)
    (hs : stopsId s = true) : findCapture lit (lit ++ (x ++ s)) = some x := by
  have hne : lit ++ (x ++ s) ≠ [] := by
    cases x with
    | nil => rw [isIdString] at hx; simp [List.isEmpty] at hx
    | cons c x' => simp
  exact findCapture_of_tryHere hne (tryHere_lit_match hx hs)

/-! ### Claim theorems: C4 -/

/-- C4. Identifier resolution round-trip: for every well-formed URL of
one of the three supported shapes embedding an identifier `x` over
`[A-Za-z0-9_-]` — where, per the fixed priority order, a URL counts as a
later shape only when the earlier patterns find no match anywhere —
`extractSheetIdFromUrl` returns exactly `x`. -/
theorem extract_sheet_id_round_trip (url x : List Char)
    (h : WellFormedShape lit1 url x ∨
      (noCaptureAnywhere lit1 url = true ∧ WellFormedShape lit2 url x) ∨
      (noCaptureAnywhere lit1 url = true ∧ noCaptureAnywhere lit2 url = true ∧
        WellFormedShape lit3 url x)) :
    extractSheetIdFromUrl url = .ok x := by
  have main : extractSheetIdBody url = .ok x := by
    rcases h with ⟨p, s, rfl, hx, hs, hne⟩ | ⟨h1, p, s, rfl, hx, hs, hne⟩ |
      ⟨h1, h2, p, s, rfl, hx, hs, hne⟩
    · unfold extractSheetIdBody
      rw [show p ++ lit1 ++ x ++ s = p ++ (lit1 ++ x ++ s) from by
        simp [List.append_assoc]]
      rw [findCapture_skip p _ hne]
      rw [show lit1 ++ x ++ s = lit1 ++ (x ++ s) from by simp [List.append_assoc]]
      rw [findCapture_found hx hs]
    · unfold extractSheetIdBody
      rw [findCapture_none _ h1]
      rw [show p ++ lit2 ++ x ++ s = p ++ (lit2 ++ x ++ s) from by
        simp [List.append_assoc]]
      rw [findCapture_skip p _ hne]
      rw [show lit2 ++ x ++ s = lit2 ++ (x ++ s) from by simp [List.append_assoc]]
      rw [findCapture_found hx hs]
    · unfold extractSheetIdBody
      rw [findCapture_none _ h1, findCapture_none _ h2]
      rw [show p ++ lit3 ++ x ++ s = p ++ (lit3 ++ x ++ s) from by
        simp [List.append_assoc]]
      rw [findCapture_skip p _ hne]
      rw [show lit3 ++ x ++ s = lit3 ++ (x ++ s) from by simp [List.append_assoc]]
      rw [findCapture_found hx hs]
  unfold extractSheetIdFromUrl
  rw [main]

/-- Witness for C4: a canonical-shape URL with identifier "1Bxi_65-X". -/
theorem extract_sheet_id_round_trip_witness :
    extractSheetIdFromUrl ("https://docs.google.com/spreadsheets/d/1Bxi_65-X/edit".toList)
      = .ok ("1Bxi_65-X".toList) :=
  extract_sheet_id_round_trip _ _
    (Or.inl ⟨"https://docs.google.com".toList, "/edit".toList,
      by decide, by decide, by decide, by decide⟩)

end MCPSheets
